import Mathlib

/-!
# Verification of the streamflow descriptive-statistics pipeline

A shallow embedding of `src/program_10.py` (assignment 10, descriptive
statistics for daily streamflow).  Discharge observations are possibly
absent; an absent value (NaN in the source) is modelled as `none` in
`Option ℚ`.  Pandas/NumPy operations that skip NaN are translated into
explicit filtering with `dropna`; float division is exact rational
division with the IEEE special cases (`x / 0`) made explicit in the
result types below.

Irrational results (standard deviations and skewness coefficients, which
involve square roots of rationals) are represented exactly: the value
`a·√r` is carried as the pair `(a, r)` in the constructors `CVal.rt` and
`SVal.rt`, and averages of such values as formal sums `Σ aᵢ·√rᵢ`.
-/

set_option autoImplicit false

/-- A pandas scalar that is either a rational number, NaN, or +∞
(the computations modelled here never produce −∞ in this type). -/
inductive Val where
  | nan : Val
  | inf : Val
  | num : ℚ → Val
deriving DecidableEq, Repr

/-- The value of the `Coeff Var` column: NaN, ±∞, or the exact real
`a·√r` (with `r ≥ 0` at every use site) carried as `rt a r`. -/
inductive CVal where
  | nan : CVal
  | inf : CVal
  | ninf : CVal
  | rt : ℚ → ℚ → CVal
deriving DecidableEq, Repr

/-- The value of the `Skew` column: NaN or the exact real `a·√r`
carried as `rt a r`. -/
inductive SVal where
  | nan : SVal
  | rt : ℚ → ℚ → SVal
deriving DecidableEq, Repr

/-- An averaged `Coeff Var` entry: NaN, ±∞, or the exact real
`Σ aᵢ·√rᵢ` carried as the list of its terms. -/
inductive CAvg where
  | nan : CAvg
  | inf : CAvg
  | ninf : CAvg
  | terms : List (ℚ × ℚ) → CAvg
deriving DecidableEq, Repr

/-- An averaged `Skew` entry: NaN or the exact real `Σ aᵢ·√rᵢ`. -/
inductive SAvg where
  | nan : SAvg
  | terms : List (ℚ × ℚ) → SAvg
deriving DecidableEq, Repr

/-- `Series.dropna()`: keep the present values, in order. -/
def dropna : List (Option ℚ) → List ℚ
  | [] => []
  | none :: qs => dropna qs
  | some q :: qs => q :: dropna qs

/-- Arithmetic mean of a list of rationals (callers guard emptiness;
on `[]` this is `0/0 = 0` in `ℚ`, a value never used). -/
def qmean (Q : List ℚ) : ℚ :=
  Q.sum / Q.length

/-- Sample variance with the `N − 1` denominator (pandas `std(ddof=1)`
squared); callers only use it when `2 ≤ Q.length`. -/
def sampleVar (Q : List ℚ) : ℚ :=
  (Q.map (fun q => (q - qmean Q) ^ 2)).sum / ((Q.length : ℚ) - 1)

/-- `k`-th central moment with the population (`N`) denominator, as used
by `scipy.stats.skew` (`bias=True`). -/
def popMoment (k : ℕ) (Q : List ℚ) : ℚ :=
  (Q.map (fun q => (q - qmean Q) ^ k)).sum / Q.length

/-- Median of a list (pandas `median`): sort, take the middle element,
or the mean of the two middle elements for even length.  The value on
`[]` is irrelevant (the source's comparisons against a NaN median are
all false, which callers reproduce by counting over an empty list). -/
def qmedian (Q : List ℚ) : ℚ :=
  let s := Q.insertionSort (· ≤ ·)
  if Q.length % 2 = 1 then s.getD (Q.length / 2) 0
  else (s.getD (Q.length / 2 - 1) 0 + s.getD (Q.length / 2) 0) / 2

/-- Consecutive first differences, `Series.diff()` without its leading
NaN (pandas' `abs(...).sum()` skips that NaN anyway): element `i` is
`Q[i+1] − Q[i]`. -/
def diffs : List ℚ → List ℚ
  | a :: b :: T => (b - a) :: diffs (b :: T)
  | [] => []
  | [_] => []

/-- Count of the elements satisfying `p` (`(series > x).sum()` in the
source counts the `True` entries of a comparison series). -/
def countIf (p : ℚ → Prop) [DecidablePred p] : List ℚ → ℕ
  | [] => 0
  | q :: R => (if p q then 1 else 0) + countIf p R

/-- Minimum of a list as a `Val` (pandas `min` of an all-NaN/empty
series is NaN). -/
def vmin (Q : List ℚ) : Val :=
  match Q with
  | [] => .nan
  | a :: r => .num (r.foldl min a)

/-- Maximum of a list as a `Val`. -/
def vmax (Q : List ℚ) : Val :=
  match Q with
  | [] => .nan
  | a :: r => .num (r.foldl max a)

/-- Mean of the present values as a `Val` (pandas `mean()`): NaN when
no present value exists. -/
def vmeanOpt (qs : List (Option ℚ)) : Val :=
  let Q := dropna qs
  if Q.isEmpty then .nan else .num (qmean Q)

/-- Median of the present values as a `Val`. -/
def vmedianOpt (qs : List (Option ℚ)) : Val :=
  let Q := dropna qs
  if Q.isEmpty then .nan else .num (qmedian Q)

/-- Sample standard deviation of the present values (pandas `std()`,
`ddof = 1`): NaN for fewer than two present values, else `√variance`,
represented exactly as `rt 1 (sampleVar Q)`. -/
def stdOpt (qs : List (Option ℚ)) : CVal :=
  let Q := dropna qs
  if Q.length < 2 then .nan else .rt 1 (sampleVar Q)

/-- Float division of a (possibly irrational) numerator by a `Val`
denominator, with NaN propagation and the IEEE zero-denominator cases:
`0/0 = NaN`, `±x/0 = ±∞` (the numerator `rt a r` is zero iff `a = 0` or
`r = 0`, and its sign is the sign of `a` since `√r ≥ 0`). -/
def cdiv (x : CVal) (d : Val) : CVal :=
  match x, d with
  | .nan, _ => .nan
  | _, .nan => .nan
  | .inf, .num b => if b < 0 then .ninf else .inf
  | .ninf, .num b => if b < 0 then .inf else .ninf
  | .inf, .inf => .nan
  | .ninf, .inf => .nan
  | .rt _ _, .inf => .rt 0 1
  | .rt a r, .num b =>
    if b = 0 then
      if a = 0 ∨ r = 0 then .nan
      else if 0 < a then .inf else .ninf
    else .rt (a / b) r

/-- Multiplication of a `CVal` by the constant 100 (`* 100` in the
source). -/
def cmul100 (x : CVal) : CVal :=
  match x with
  | .nan => .nan
  | .inf => .inf
  | .ninf => .ninf
  | .rt a r => .rt (100 * a) r

/-- `CalcTqmean` (src/program_10.py:54-65): drop absent values, then
count the values strictly above their own mean and divide by the number
of present values.  With no present value the count and length are both
zero and NumPy's `0/0` is NaN. -/
def CalcTqmean (qs : List (Option ℚ)) : Val :=
  let Q := dropna qs
  if Q.length = 0 then .nan
  else .num ((countIf (fun q => qmean Q < q) Q : ℚ) / Q.length)

/-- `CalcRBindex` (src/program_10.py:67-81): drop absent values, sum of
absolute day-to-day differences divided by the total discharge.  When
the total is zero the float division gives NaN (`0/0`) or +∞
(`positive/0`). -/
def CalcRBindex (qs : List (Option ℚ)) : Val :=
  let Q := dropna qs
  let absval := ((diffs Q).map (fun d => |d|)).sum
  let total := Q.sum
  if total = 0 then (if absval = 0 then .nan else .inf)
  else .num (absval / total)

/-- Means of every 7-long window of consecutive entries, in order of
the window's starting position. -/
def windows7 : List ℚ → List ℚ
  | a :: b :: c :: d :: e :: f :: g :: rest =>
    qmean [a, b, c, d, e, f, g] :: windows7 (b :: c :: d :: e :: f :: g :: rest)
  | [] => []
  | [_] => []
  | [_, _] => []
  | [_, _, _] => []
  | [_, _, _, _] => []
  | [_, _, _, _, _] => []
  | [_, _, _, _, _, _] => []
termination_by Q => Q.length

/-- `Series.rolling(window=7).mean()`: a series of the same length
whose entry `i` is NaN for `i < 6` (`min_periods` defaults to the
window size) and otherwise the mean of the seven entries ending at
position `i`; equivalently, `min 6 Q.length` NaNs followed by the means
of the 7-long windows in order. -/
def rolling7mean (Q : List ℚ) : List (Option ℚ) :=
  List.replicate (min 6 Q.length) none ++ (windows7 Q).map some

/-- `Calc7Q` (src/program_10.py:83-94): drop absent values, take the
7-entry rolling means, and return their minimum (pandas `min` skips the
leading NaNs; an all-NaN series yields NaN). -/
def Calc7Q (qs : List (Option ℚ)) : Val :=
  let Q := dropna qs
  vmin ((rolling7mean Q).filterMap id)

/-- `CalcExceed3TimesMedian` (src/program_10.py:96-105): drop absent
values and count the values strictly greater than three times the
median.  On an empty list the comparison series is empty and the count
is 0 (the median's value is never consulted). -/
def CalcExceed3TimesMedian (qs : List (Option ℚ)) : Val :=
  let Q := dropna qs
  .num (countIf (fun q => qmedian Q * 3 < q) Q)

/-- The `Coeff Var` computation shared by lines 129 and 153 of the
source: `(std() / mean()) * 100` with pandas' skip-NaN `std` (sample,
`ddof = 1`) and `mean`. -/
def coeffVar (qs : List (Option ℚ)) : CVal :=
  cmul100 (cdiv (stdOpt qs) (vmeanOpt qs))

/-- `scipy.stats.skew` as called on line 130 of the source: the default
`nan_policy='propagate'` makes the result NaN as soon as any value is
absent; otherwise `m₃ / m₂^(3/2)` with population central moments, with
the zero-variance case mapped to 0 (scipy's `_lazywhere` branch).  The
value `m₃ / m₂^(3/2) = (m₃/m₂²)·√m₂` is carried exactly as
`rt (m₃/m₂²) m₂`. -/
def scipySkew (qs : List (Option ℚ)) : SVal :=
  if qs.any (fun x => x.isNone) then .nan
  else
    let Q := dropna qs
    if Q.isEmpty then .nan
    else if popMoment 2 Q = 0 then .rt 0 1
    else .rt (popMoment 3 Q / (popMoment 2 Q) ^ 2) (popMoment 2 Q)

/-! ## The table layer

`ReadData`/`ClipData` (excluded I/O glue) deliver a chronologically
ordered, date-contiguous daily series.  `resample('AS-OCT')` and
`resample('MS')` partition such a series into water-year
(October-to-September) and calendar-month bins; on a chronologically
ordered input whose dates are contiguous (the input invariant of the
spec, §3), the bins are exactly the maximal runs of consecutive
observations sharing a key, which is how `chunksBy` computes them. -/

/-- One daily observation: date, station identifier and the possibly
absent discharge (the `agency_cd`/`Quality` columns are never consulted
by the statistics functions). -/
structure Obs where
  year : ℤ
  month : ℕ
  day : ℕ
  site_no : ℚ
  discharge : Option ℚ
deriving DecidableEq, Repr

/-- Water-year key of `resample('AS-OCT')`: the water year is labelled
by the calendar year of its October 1 start. -/
def wyKey (o : Obs) : ℤ :=
  if 10 ≤ o.month then o.year else o.year - 1

/-- Calendar-month key of `resample('MS')`. -/
def moKey (o : Obs) : ℤ × ℕ :=
  (o.year, o.month)

/-- Group a list into maximal runs of consecutive elements sharing a
key, keeping the key of each run. -/
def chunksBy {α κ : Type} [DecidableEq κ] (key : α → κ) : List α → List (κ × List α)
  | [] => []
  | a :: rest =>
    match chunksBy key rest with
    | [] => [(key a, [a])]
    | (k, g) :: gs =>
      if key a = k then (k, a :: g) :: gs
      else (key a, [a]) :: (k, g) :: gs

/-- Maximum of the present values as a `Val` (pandas `max()`). -/
def vmaxOpt (qs : List (Option ℚ)) : Val :=
  let Q := dropna qs
  if Q.isEmpty then .nan else vmax Q

/-- One row of the annual (water-year) metrics table
(src/program_10.py:113-134). -/
structure ARow where
  site_no : Val
  meanFlow : Val
  peakFlow : Val
  medianFlow : Val
  coVar : CVal
  skew : SVal
  tqmean : Val
  rbIndex : Val
  sevenQ : Val
  exceed3xMedian : Val
deriving DecidableEq, Repr

/-- The annual metrics of one water-year bin, column by column as
assigned on lines 125-134 of the source. -/
def mkARow (g : List Obs) : ARow :=
  let qs := g.map (fun o => o.discharge)
  { site_no := vmin (g.map (fun o => o.site_no))
    meanFlow := vmeanOpt qs
    peakFlow := vmaxOpt qs
    medianFlow := vmedianOpt qs
    coVar := coeffVar qs
    skew := scipySkew qs
    tqmean := CalcTqmean qs
    rbIndex := CalcRBindex qs
    sevenQ := Calc7Q qs
    exceed3xMedian := CalcExceed3TimesMedian qs }

/-- `GetAnnualStatistics` (src/program_10.py:107-137): one metrics row
per water-year bin, in chronological order. -/
def GetAnnualStatistics (df : List Obs) : List ARow :=
  (chunksBy wyKey df).map (fun c => mkARow c.2)

/-- One row of the monthly metrics table (src/program_10.py:144-155). -/
structure MRow where
  site_no : Val
  meanFlow : Val
  coVar : CVal
  tqmean : Val
  rbIndex : Val
deriving DecidableEq, Repr

/-- The monthly metrics of one calendar-month bin, column by column as
assigned on lines 151-155 of the source. -/
def mkMRow (g : List Obs) : MRow :=
  let qs := g.map (fun o => o.discharge)
  { site_no := vmin (g.map (fun o => o.site_no))
    meanFlow := vmeanOpt qs
    coVar := coeffVar qs
    tqmean := CalcTqmean qs
    rbIndex := CalcRBindex qs }

/-- `GetMonthlyStatistics` (src/program_10.py:139-157): one metrics row
per calendar-month bin, in chronological order. -/
def GetMonthlyStatistics (df : List Obs) : List MRow :=
  (chunksBy moKey df).map (fun c => mkMRow c.2)

/-- The `Val` entries of a list with the NaNs removed. -/
def dropNanV : List Val → List Val
  | [] => []
  | .nan :: xs => dropNanV xs
  | .inf :: xs => .inf :: dropNanV xs
  | .num q :: xs => .num q :: dropNanV xs

/-- The finite entries of a list of `Val`s. -/
def numsOf : List Val → List ℚ
  | [] => []
  | .nan :: xs => numsOf xs
  | .inf :: xs => numsOf xs
  | .num q :: xs => q :: numsOf xs

/-- pandas skip-NaN column mean over `Val` entries: NaN entries are
dropped from both sum and denominator; no entry left gives NaN; a +∞
entry makes the sum and hence the mean +∞. -/
def vnanmean (xs : List Val) : Val :=
  let ys := dropNanV xs
  if ys.isEmpty then .nan
  else if Val.inf ∈ ys then .inf
  else .num ((numsOf ys).sum / ys.length)

/-- The `CVal` entries of a list with the NaNs removed. -/
def dropNanC : List CVal → List CVal
  | [] => []
  | .nan :: xs => dropNanC xs
  | .inf :: xs => .inf :: dropNanC xs
  | .ninf :: xs => .ninf :: dropNanC xs
  | .rt a r :: xs => .rt a r :: dropNanC xs

/-- The finite `(a, r)` entries (values `a·√r`) of a list of `CVal`s. -/
def rtsOfC : List CVal → List (ℚ × ℚ)
  | [] => []
  | .nan :: xs => rtsOfC xs
  | .inf :: xs => rtsOfC xs
  | .ninf :: xs => rtsOfC xs
  | .rt a r :: xs => (a, r) :: rtsOfC xs

/-- pandas skip-NaN column mean over `CVal` entries, exactly: infinite
entries of both signs give NaN (`∞ + (−∞)`), one sign gives that
infinity, and otherwise the mean `Σ (aᵢ/n)·√rᵢ` is kept as its list of
terms. -/
def cnanmean (xs : List CVal) : CAvg :=
  let ys := dropNanC xs
  if ys.isEmpty then .nan
  else if CVal.inf ∈ ys ∧ CVal.ninf ∈ ys then .nan
  else if CVal.inf ∈ ys then .inf
  else if CVal.ninf ∈ ys then .ninf
  else .terms ((rtsOfC ys).map (fun p => (p.1 / ys.length, p.2)))

/-- The `SVal` entries of a list with the NaNs removed. -/
def rtsOfS : List SVal → List (ℚ × ℚ)
  | [] => []
  | .nan :: xs => rtsOfS xs
  | .rt a r :: xs => (a, r) :: rtsOfS xs

/-- pandas skip-NaN column mean over `SVal` entries, exactly as a
formal sum `Σ (aᵢ/n)·√rᵢ`. -/
def snanmean (xs : List SVal) : SAvg :=
  let ys := rtsOfS xs
  if ys.isEmpty then .nan
  else .terms (ys.map (fun p => (p.1 / ys.length, p.2)))

/-- The single row produced by `GetAnnualAverages`
(src/program_10.py:159-164): `WYDataDF.mean()` is the skip-NaN
column-wise mean of every column, the `site_no` column included. -/
structure AAvgRow where
  site_no : Val
  meanFlow : Val
  peakFlow : Val
  medianFlow : Val
  coVar : CAvg
  skew : SAvg
  tqmean : Val
  rbIndex : Val
  sevenQ : Val
  exceed3xMedian : Val
deriving DecidableEq, Repr

/-- `GetAnnualAverages` (src/program_10.py:159-164). -/
def GetAnnualAverages (rows : List ARow) : AAvgRow :=
  { site_no := vnanmean (rows.map (fun r => r.site_no))
    meanFlow := vnanmean (rows.map (fun r => r.meanFlow))
    peakFlow := vnanmean (rows.map (fun r => r.peakFlow))
    medianFlow := vnanmean (rows.map (fun r => r.medianFlow))
    coVar := cnanmean (rows.map (fun r => r.coVar))
    skew := snanmean (rows.map (fun r => r.skew))
    tqmean := vnanmean (rows.map (fun r => r.tqmean))
    rbIndex := vnanmean (rows.map (fun r => r.rbIndex))
    sevenQ := vnanmean (rows.map (fun r => r.sevenQ))
    exceed3xMedian := vnanmean (rows.map (fun r => r.exceed3xMedian)) }

/-- Python's slice `l[c::12]`: every 12th element starting at position
`c` (the first argument of the auxiliary counter is how many elements
are still skipped before the next one taken). -/
def sliceEvery12 {α : Type} : List α → ℕ → List α
  | [], _ => []
  | a :: l, 0 => a :: sliceEvery12 l 11
  | _ :: l, c + 1 => sliceEvery12 l c

/-- The source's offset table `month = [3,4,5,6,7,8,9,10,11,0,1,2]`
(src/program_10.py:172). -/
def monthOffsets : List ℕ := [3, 4, 5, 6, 7, 8, 9, 10, 11, 0, 1, 2]

/-- One row of the `GetMonthlyAverages` output. -/
structure MAvgRow where
  site_no : Val
  meanFlow : Val
  coVar : CAvg
  tqmean : Val
  rbIndex : Val
deriving DecidableEq, Repr

/-- `GetMonthlyAverages` (src/program_10.py:166-185): twelve rows
(DataFrame index labels 1..12, list position `i` = label `i+1`); row
`i`'s `site_no` is the mean of the `site_no` column sliced `[::12]`,
and each metric column is the skip-NaN mean of that column sliced
`[month[i]::12]`. -/
def GetMonthlyAverages (rows : List MRow) : List MAvgRow :=
  (List.range 12).map (fun i =>
    { site_no := vnanmean (sliceEvery12 (rows.map (fun r => r.site_no)) 0)
      meanFlow := vnanmean
        (sliceEvery12 (rows.map (fun r => r.meanFlow)) (monthOffsets.getD i 0))
      coVar := cnanmean
        (sliceEvery12 (rows.map (fun r => r.coVar)) (monthOffsets.getD i 0))
      tqmean := vnanmean
        (sliceEvery12 (rows.map (fun r => r.tqmean)) (monthOffsets.getD i 0))
      rbIndex := vnanmean
        (sliceEvery12 (rows.map (fun r => r.rbIndex)) (monthOffsets.getD i 0)) })

/-- `n` consecutive calendar months starting at month `m` of year `y`,
as `(year, month)` pairs. -/
def genM : ℤ → ℕ → ℕ → List (ℤ × ℕ)
  | _, _, 0 => []
  | y, m, n + 1 => (y, m) :: (if m = 12 then genM (y + 1) 1 n else genM y (m + 1) n)

/-- The (year, month) keys of the monthly bins of a series, in order. -/
def monthKeys (df : List Obs) : List (ℤ × ℕ) :=
  (chunksBy moKey df).map Prod.fst

/-- The keyed bins whose calendar-month component equals `m`, in
order. -/
def keepMonth {β : Type} (m : ℕ) : List ((ℤ × ℕ) × β) → List ((ℤ × ℕ) × β)
  | [] => []
  | p :: ps => if p.1.2 = m then p :: keepMonth m ps else keepMonth m ps

/-- The monthly metrics rows of a series that belong to calendar month
`m` (1 = January, …, 12 = December), regardless of year — the grouping
the spec prescribes for monthly averaging. -/
def monthMRows (df : List Obs) (m : ℕ) : List MRow :=
  (keepMonth m (chunksBy moKey df)).map (fun c => mkMRow c.2)

/-! ## Specification-side definitions

Each definition below follows the wording of the specification (not the
source); the claims compare them with the source-side definitions
above. -/

/-- The 7-day low flow as the spec words it: discard absent values,
form the mean of every window of 7 consecutive entries of the filtered
sequence (window `j` starts at position `j`), and return the minimum;
not-a-number when fewer than 7 present values exist. -/
def sevenQSpec (qs : List (Option ℚ)) : Val :=
  let Q := dropna qs
  if Q.length < 7 then .nan
  else vmin ((List.range (Q.length - 6)).map (fun j => qmean ((Q.drop j).take 7)))

/-- The `Coeff Var` contract as claim C4 words it: sample standard
deviation of the present values over their mean, times 100;
not-a-number whenever the mean is zero or fewer than 2 present values
exist.  (`(std/mean)·100 = (100/mean)·√variance` is carried as
`rt (100/mean) variance`.) -/
def coeffVarSpec (qs : List (Option ℚ)) : CVal :=
  let P := dropna qs
  if P.length < 2 ∨ qmean P = 0 then .nan
  else .rt (100 / qmean P) (sampleVar P)

/-- The corrected `Coeff Var` contract: not-a-number for fewer than 2
present values, and for a zero mean with zero variance; +∞ for a zero
mean with nonzero variance (float `positive/0`); otherwise the spec's
formula. -/
def coeffVarAmended (qs : List (Option ℚ)) : CVal :=
  let P := dropna qs
  if P.length < 2 then .nan
  else if qmean P = 0 then (if sampleVar P = 0 then .nan else .inf)
  else .rt (100 / qmean P) (sampleVar P)

/-- Skewness of a list of (already filtered, all present) values — the
estimator of `scipySkew` applied after the spec-mandated discarding of
absent observations. -/
def pureSkew (Q : List ℚ) : SVal :=
  if Q.isEmpty then .nan
  else if popMoment 2 Q = 0 then .rt 0 1
  else .rt (popMoment 3 Q / (popMoment 2 Q) ^ 2) (popMoment 2 Q)

/-! ## Concrete series used by the counterexamples -/

/-- One observation of station 777 with one present discharge value. -/
def mkObs (y : ℤ) (m : ℕ) (v : ℚ) : Obs := ⟨y, m, 1, 777, some v⟩

/-- One whole water year starting October 1969, one observation per
calendar month; October's discharge is 10 and January's is 20. -/
def CdfA : List Obs :=
  [mkObs 1969 10 10, mkObs 1969 11 2, mkObs 1969 12 3,
   mkObs 1970 1 20, mkObs 1970 2 5, mkObs 1970 3 6,
   mkObs 1970 4 7, mkObs 1970 5 8, mkObs 1970 6 9,
   mkObs 1970 7 21, mkObs 1970 8 22, mkObs 1970 9 23]

/-- A single water-year bin (October 1969) with one absent observation
and present values `[1, 1, 3, 3]`. -/
def CdfB : List Obs :=
  [⟨1969, 10, 1, 7, none⟩, ⟨1969, 10, 2, 7, some 1⟩, ⟨1969, 10, 3, 7, some 1⟩,
   ⟨1969, 10, 4, 7, some 3⟩, ⟨1969, 10, 5, 7, some 3⟩]

/-- A single water-year bin (October 1969) whose two present values
`1` and `−1` have mean zero but nonzero sample variance. -/
def CdfC : List Obs :=
  [⟨1969, 10, 1, 55, some 1⟩, ⟨1969, 10, 2, 55, some (-1)⟩]

example : CalcTqmean [some 2, some 4] = .num (1 / 2) := by
  norm_num [CalcTqmean, dropna, qmean, countIf]
example : CalcTqmean [none] = .nan := by
  norm_num [CalcTqmean, dropna]
example : CalcRBindex [some 1, some 3] = .num (1 / 2) := by
  norm_num [CalcRBindex, dropna, diffs]
example : CalcRBindex [some 1, some (-1)] = .inf := by
  norm_num [CalcRBindex, dropna, diffs]
example : CalcRBindex [] = .nan := by
  norm_num [CalcRBindex, dropna, diffs]
example : Calc7Q [some 1, some 2, some 3] = .nan := by
  norm_num [Calc7Q, dropna, rolling7mean, windows7, vmin,
    List.replicate, List.filterMap_cons]
example :
    Calc7Q ([10, 10, 10, 10, 10, 10, 10, 1, 10, 10].map some)
      = .num (61 / 7) := by
  norm_num [Calc7Q, dropna, rolling7mean, windows7, vmin, qmean,
    min_def, List.replicate, List.filterMap_cons]
example :
    CalcExceed3TimesMedian ([1, 1, 1, 1, 10].map some) = .num 1 := by
  norm_num [CalcExceed3TimesMedian, dropna, qmedian, countIf,
    List.insertionSort, List.orderedInsert]
example : CalcExceed3TimesMedian [] = .num 0 := by
  norm_num [CalcExceed3TimesMedian, dropna, countIf]
example : coeffVar ([0, 2, 4].map some) = .rt 50 4 := by
  norm_num [coeffVar, stdOpt, vmeanOpt, cdiv, cmul100, dropna, qmean,
    sampleVar]
example : coeffVar [some 1, some (-1)] = .inf := by
  norm_num [coeffVar, stdOpt, vmeanOpt, cdiv, cmul100, dropna, qmean,
    sampleVar]
example : scipySkew [none, some 1, some 1, some 3, some 3] = .nan := by
  norm_num [scipySkew]
example : scipySkew ([1, 1, 3, 3].map some) = .rt 0 1 := by
  norm_num [scipySkew, dropna, popMoment, qmean]

/-! ## Helper lemmas -/

theorem dropna_map_some (Q : List ℚ) : dropna (Q.map some) = Q := by
  induction Q with
  | nil => rfl
  | cons a T ih => simp [dropna, ih]

theorem dropna_map_optmap (f : ℚ → ℚ) (qs : List (Option ℚ)) :
    dropna (qs.map (Option.map f)) = (dropna qs).map f := by
  induction qs with
  | nil => rfl
  | cons a T ih => cases a <;> simp [dropna, ih]

theorem filterMap_id_replicate_none (n : ℕ) :
    (List.replicate n (none : Option ℚ)).filterMap id = [] := by
  induction n with
  | zero => rfl
  | succ n ih => simp [List.replicate, ih]

theorem filterMap_id_map_some (l : List ℚ) : (l.map some).filterMap id = l := by
  induction l with
  | nil => rfl
  | cons a T ih => simp [ih]

theorem windows7_eq (Q : List ℚ) :
    windows7 Q
      = (List.range (Q.length - 6)).map (fun j => qmean ((Q.drop j).take 7)) := by
  induction Q using windows7.induct with
  | case1 a b c d e f g rest ih =>
    have hlen : (a :: b :: c :: d :: e :: f :: g :: rest).length - 6
        = rest.length + 1 := by simp
    rw [windows7, hlen, List.range_succ_eq_map]
    simp only [List.map_cons, List.map_map]
    refine List.cons_eq_cons.mpr ⟨by simp, ?_⟩
    rw [ih]
    have hl : (b :: c :: d :: e :: f :: g :: rest).length - 6 = rest.length := by
      simp
    rw [hl]
    apply List.map_congr_left
    intro j _
    simp [List.drop_succ_cons]
  | case2 => simp [windows7]
  | case3 => simp [windows7]
  | case4 => simp [windows7]
  | case5 => simp [windows7]
  | case6 => simp [windows7]
  | case7 => simp [windows7]
  | case8 => simp [windows7]

theorem countIf_le_length (p : ℚ → Prop) [DecidablePred p] (Q : List ℚ) :
    countIf p Q ≤ Q.length := by
  induction Q with
  | nil => simp [countIf]
  | cons a T ih =>
    simp only [countIf, List.length_cons]
    split <;> omega

theorem diffs_map_mul (c : ℚ) : ∀ Q : List ℚ,
    diffs (Q.map (fun x => c * x)) = (diffs Q).map (fun x => c * x)
  | [] => rfl
  | [_] => rfl
  | a :: b :: T => by
    have ih := diffs_map_mul c (b :: T)
    simp only [List.map_cons] at ih ⊢
    simp only [diffs]
    rw [ih]
    congr 1
    ring

theorem sum_map_mul (c : ℚ) (l : List ℚ) :
    (l.map (fun x => c * x)).sum = c * l.sum := by
  induction l with
  | nil => simp
  | cons a T ih => simp [ih, mul_add]

theorem sliceEvery12_map {α β : Type} (f : α → β) : ∀ (l : List α) (c : ℕ),
    sliceEvery12 (l.map f) c = (sliceEvery12 l c).map f
  | [], _ => by simp [sliceEvery12]
  | a :: l, 0 => by simp [sliceEvery12, sliceEvery12_map f l 11]
  | a :: l, c + 1 => by simp [sliceEvery12, sliceEvery12_map f l c]

theorem dropNanV_map_num (l : List ℚ) :
    dropNanV (l.map Val.num) = l.map Val.num := by
  induction l with
  | nil => rfl
  | cons a T ih => simp [dropNanV, ih]

theorem numsOf_map_num (l : List ℚ) : numsOf (l.map Val.num) = l := by
  induction l with
  | nil => rfl
  | cons a T ih => simp [numsOf, ih]

theorem inf_not_mem_map_num (l : List ℚ) : Val.inf ∉ l.map Val.num := by
  induction l with
  | nil => simp
  | cons a T ih => simp [ih]

theorem vnanmean_map_num (l : List ℚ) (h : l ≠ []) :
    vnanmean (l.map Val.num) = .num (l.sum / l.length) := by
  rw [vnanmean, dropNanV_map_num]
  rw [if_neg (by simp [h]), if_neg (inf_not_mem_map_num l)]
  rw [numsOf_map_num]
  simp

/-! ## Claims -/

/-- C6: `Calc7Q` discards absent values, then returns the minimum over
all 7-long windows of consecutive entries of the filtered sequence of
the window's arithmetic mean, and the not-a-number sentinel when fewer
than 7 present values exist. -/
theorem calc7Q_is_min_window_mean (qs : List (Option ℚ)) :
    Calc7Q qs = sevenQSpec qs := by
  simp only [Calc7Q, sevenQSpec, rolling7mean]
  rw [List.filterMap_append, filterMap_id_replicate_none, filterMap_id_map_some,
    List.nil_append, windows7_eq]
  by_cases h : (dropna qs).length < 7
  · rw [if_pos h]
    have : (dropna qs).length - 6 = 0 := by omega
    rw [this]
    simp [vmin]
  · rw [if_neg h]

/-- C7: with at least one present value, `CalcTqmean` is the count of
present values strictly above the mean of present values divided by the
count of present values, a fraction in `[0, 1]`. -/
theorem tqmean_formula_and_range (qs : List (Option ℚ)) (h : dropna qs ≠ []) :
    ∃ r : ℚ, CalcTqmean qs = Val.num r
      ∧ r = (countIf (fun q => qmean (dropna qs) < q) (dropna qs) : ℚ)
          / (dropna qs).length
      ∧ 0 ≤ r ∧ r ≤ 1 := by
  have hlen : (dropna qs).length ≠ 0 := by
    simp [List.length_eq_zero, h]
  have hpos : (0 : ℚ) < (dropna qs).length := by
    exact_mod_cast Nat.pos_of_ne_zero hlen
  refine ⟨_, by simp [CalcTqmean, hlen], rfl, ?_, ?_⟩
  · apply div_nonneg (by positivity) (le_of_lt hpos)
  · rw [div_le_one hpos]
    exact_mod_cast countIf_le_length _ _

/-- C7 witness: the two-value series `[2, 4]` has Tqmean `1/2`. -/
theorem tqmean_formula_and_range_witness :
    ∃ r : ℚ, CalcTqmean [some 2, some 4] = Val.num r
      ∧ r = (countIf (fun q => qmean (dropna [some 2, some 4]) < q)
          (dropna [some 2, some 4]) : ℚ) / (dropna [some 2, some 4]).length
      ∧ 0 ≤ r ∧ r ≤ 1 :=
  tqmean_formula_and_range [some 2, some 4] (by simp [dropna])

/-- C8: `CalcRBindex` is invariant under multiplying every value by a
positive constant, whenever the present values have nonzero sum. -/
theorem rbindex_scale_invariant (qs : List (Option ℚ)) (c : ℚ)
    (hc : 0 < c) (hsum : (dropna qs).sum ≠ 0) :
    CalcRBindex (qs.map (Option.map (fun x => c * x))) = CalcRBindex qs := by
  simp only [CalcRBindex]
  rw [dropna_map_optmap, diffs_map_mul]
  have habs : ((diffs (dropna qs)).map (fun x => c * x)).map (fun d => |d|)
      = (diffs (dropna qs)).map (fun d => c * |d|) := by
    rw [List.map_map]
    apply List.map_congr_left
    intro d _
    simp [abs_mul, abs_of_pos hc]
  have habs2 : ((diffs (dropna qs)).map (fun d => c * |d|)).sum
      = c * ((diffs (dropna qs)).map (fun d => |d|)).sum := by
    rw [show (fun d => c * |d|) = (fun x => c * x) ∘ (fun d => |d|) from rfl,
      ← List.map_map, sum_map_mul]
  rw [habs, habs2, sum_map_mul]
  have hc0 : c ≠ 0 := ne_of_gt hc
  rw [if_neg (by simp [hc0, hsum]), if_neg hsum]
  rw [mul_div_mul_left _ _ hc0]

/-- C8 witness: doubling the series `[1, 3]` leaves the R-B index
unchanged. -/
theorem rbindex_scale_invariant_witness :
    CalcRBindex ([some 1, some 3].map (Option.map (fun x => 2 * x)))
      = CalcRBindex [some 1, some 3] :=
  rbindex_scale_invariant [some 1, some 3] 2 (by norm_num)
    (by norm_num [dropna])

/-- C3: the four metric functions are total — `CalcExceed3TimesMedian`
always returns a (finite) count, and on a series whose present values
vanish after filtering, `CalcTqmean`, `CalcRBindex` and `Calc7Q` all
return the not-a-number sentinel (`Calc7Q` already for fewer than 7
present values); none of them has an error outcome (each is a total
function into `Val`, which has no exception constructor — the source's
NumPy divisions warn and produce NaN/∞ rather than raise). -/
theorem calc_functions_total (qs : List (Option ℚ)) :
    (∃ n : ℕ, CalcExceed3TimesMedian qs = Val.num n)
    ∧ (dropna qs = [] →
        CalcTqmean qs = Val.nan ∧ CalcRBindex qs = Val.nan)
    ∧ ((dropna qs).length < 7 → Calc7Q qs = Val.nan) := by
  refine ⟨⟨countIf (fun q => qmedian (dropna qs) * 3 < q) (dropna qs), rfl⟩,
    fun h => ⟨?_, ?_⟩, fun h => ?_⟩
  · simp [CalcTqmean, h]
  · simp [CalcRBindex, h, diffs]
  · simp only [Calc7Q, rolling7mean]
    rw [List.filterMap_append, filterMap_id_replicate_none,
      filterMap_id_map_some, List.nil_append, windows7_eq]
    have h0 : (dropna qs).length - 6 = 0 := by omega
    rw [h0]
    simp [vmin]

/-- C3 witness: the all-absent series `[none]` yields a count of 0 and
NaN for the other three metrics. -/
theorem calc_functions_total_witness :
    (∃ n : ℕ, CalcExceed3TimesMedian [none] = Val.num n)
    ∧ (CalcTqmean [none] = Val.nan ∧ CalcRBindex [none] = Val.nan)
    ∧ Calc7Q [none] = Val.nan :=
  ⟨(calc_functions_total [none]).1,
   (calc_functions_total [none]).2.1 (by simp [dropna]),
   (calc_functions_total [none]).2.2 (by simp [dropna])⟩

/-- C2 counterexample: in the water year of `CdfB` (one absent
observation, present values `[1,1,3,3]`) the code's Skew is NaN, while
the skewness of the year's present values is 0 — `stats.skew` is called
without discarding absent values and its default policy propagates
NaN. -/
theorem skew_not_filtered_counterexample :
    (GetAnnualStatistics CdfB).map (fun r => r.skew) = [SVal.nan]
    ∧ pureSkew (dropna (CdfB.map (fun o => o.discharge))) = SVal.rt 0 1
    ∧ SVal.nan ≠ SVal.rt 0 1 := by
  refine ⟨?_, ?_, by simp⟩
  · norm_num [GetAnnualStatistics, CdfB, chunksBy, wyKey, mkARow, scipySkew]
  · norm_num [pureSkew, CdfB, dropna, popMoment, qmean]

/-- C2 (amended): the metrics other than Skew are insensitive to
removing the absent observations first, but the Skew of a period that
contains at least one absent observation is the NaN sentinel (scipy's
`nan_policy='propagate'`), not the skewness of the present values. -/
theorem skew_nan_propagation :
    (∀ g : List Obs, (∃ o ∈ g, o.discharge = none) →
      (mkARow g).skew = SVal.nan)
    ∧ (∀ qs : List (Option ℚ),
        CalcTqmean ((dropna qs).map some) = CalcTqmean qs
        ∧ CalcRBindex ((dropna qs).map some) = CalcRBindex qs
        ∧ Calc7Q ((dropna qs).map some) = Calc7Q qs
        ∧ CalcExceed3TimesMedian ((dropna qs).map some)
            = CalcExceed3TimesMedian qs) := by
  constructor
  · rintro g ⟨o, ho, hnone⟩
    have hany : (g.map (fun o => o.discharge)).any (fun x => x.isNone) = true := by
      rw [List.any_eq_true]
      exact ⟨none, by simpa [hnone] using List.mem_map_of_mem (fun o => o.discharge) ho, rfl⟩
    simp [mkARow, scipySkew, hany]
  · intro qs
    refine ⟨?_, ?_, ?_, ?_⟩ <;>
      simp only [CalcTqmean, CalcRBindex, Calc7Q, CalcExceed3TimesMedian,
        dropna_map_some]

/-- C2 witness: a one-element period whose only observation is absent
has NaN Skew. -/
theorem skew_nan_propagation_witness :
    (mkARow [⟨1969, 10, 1, 7, none⟩]).skew = SVal.nan :=
  skew_nan_propagation.1 [⟨1969, 10, 1, 7, none⟩]
    ⟨⟨1969, 10, 1, 7, none⟩, by simp, rfl⟩

/-- C4 counterexample: on the period of `CdfC` (present values `1` and
`−1`) the mean is zero and the sample deviation is not, so the code's
`Coeff Var` is +∞ while the claim's contract says NaN. -/
theorem coeffVar_mean_zero_counterexample :
    (GetAnnualStatistics CdfC).map (fun r => r.coVar) = [CVal.inf]
    ∧ coeffVarSpec [some 1, some (-1)] = CVal.nan
    ∧ CVal.inf ≠ CVal.nan := by
  refine ⟨?_, ?_, by simp⟩
  · norm_num [GetAnnualStatistics, CdfC, chunksBy, wyKey, mkARow, coeffVar,
      stdOpt, vmeanOpt, dropna, qmean, sampleVar, cdiv, cmul100]
    simp
  · norm_num [coeffVarSpec, dropna, qmean, sampleVar]

/-- C4 (amended): the `Coeff Var` column used by both statistics tables
equals the spec's `(sample std / mean) · 100` with NaN for fewer than 2
present values or a zero mean with zero deviation, except that a zero
mean with nonzero deviation gives +∞ rather than NaN. -/
theorem coeffVar_characterization :
    (∀ qs : List (Option ℚ), coeffVar qs = coeffVarAmended qs)
    ∧ (∀ g : List Obs,
        (mkARow g).coVar = coeffVar (g.map (fun o => o.discharge))
        ∧ (mkMRow g).coVar = coeffVar (g.map (fun o => o.discharge))) := by
  have cdiv_nan_left : ∀ d : Val, cdiv CVal.nan d = CVal.nan := by
    intro d
    cases d <;> rfl
  refine ⟨?_, fun g => ⟨rfl, rfl⟩⟩
  intro qs
  simp only [coeffVar, coeffVarAmended, stdOpt, vmeanOpt]
  by_cases hlen : (dropna qs).length < 2
  · rw [if_pos hlen, if_pos hlen, cdiv_nan_left]
    rfl
  · have hne : (dropna qs).isEmpty = false := by
      cases hq : dropna qs with
      | nil => rw [hq] at hlen; simp at hlen
      | cons a T => simp
    rw [if_neg hlen, if_neg hlen, hne]
    simp only [Bool.false_eq_true, if_false]
    by_cases hm : qmean (dropna qs) = 0
    · rw [if_pos hm]
      by_cases hv : sampleVar (dropna qs) = 0
      · simp [cdiv, cmul100, hm, hv]
      · simp [cdiv, cmul100, hm, hv]
    · rw [if_neg hm]
      simp [cdiv, cmul100, hm, div_eq_mul_inv]

/-- C5: `GetAnnualAverages` averages each column only over its
non-NaN entries: with two rows, a NaN entry in one and a finite entry
in the other, every column's average is exactly the finite entry. -/
theorem annual_averages_ignore_nan (r1 r2 : ARow) (v a r : ℚ) :
    (r1.site_no = Val.nan → r2.site_no = Val.num v →
      (GetAnnualAverages [r1, r2]).site_no = Val.num v)
    ∧ (r1.meanFlow = Val.nan → r2.meanFlow = Val.num v →
      (GetAnnualAverages [r1, r2]).meanFlow = Val.num v)
    ∧ (r1.peakFlow = Val.nan → r2.peakFlow = Val.num v →
      (GetAnnualAverages [r1, r2]).peakFlow = Val.num v)
    ∧ (r1.medianFlow = Val.nan → r2.medianFlow = Val.num v →
      (GetAnnualAverages [r1, r2]).medianFlow = Val.num v)
    ∧ (r1.coVar = CVal.nan → r2.coVar = CVal.rt a r →
      (GetAnnualAverages [r1, r2]).coVar = CAvg.terms [(a, r)])
    ∧ (r1.skew = SVal.nan → r2.skew = SVal.rt a r →
      (GetAnnualAverages [r1, r2]).skew = SAvg.terms [(a, r)])
    ∧ (r1.tqmean = Val.nan → r2.tqmean = Val.num v →
      (GetAnnualAverages [r1, r2]).tqmean = Val.num v)
    ∧ (r1.rbIndex = Val.nan → r2.rbIndex = Val.num v →
      (GetAnnualAverages [r1, r2]).rbIndex = Val.num v)
    ∧ (r1.sevenQ = Val.nan → r2.sevenQ = Val.num v →
      (GetAnnualAverages [r1, r2]).sevenQ = Val.num v)
    ∧ (r1.exceed3xMedian = Val.nan → r2.exceed3xMedian = Val.num v →
      (GetAnnualAverages [r1, r2]).exceed3xMedian = Val.num v) := by
  have hv : ∀ x : ℚ, vnanmean [Val.nan, Val.num x] = Val.num x := by
    intro x
    norm_num [vnanmean, dropNanV, numsOf]
  have hc : cnanmean [CVal.nan, CVal.rt a r] = CAvg.terms [(a, r)] := by
    simp [cnanmean, dropNanC, rtsOfC]
  have hs : snanmean [SVal.nan, SVal.rt a r] = SAvg.terms [(a, r)] := by
    simp [snanmean, rtsOfS]
  refine ⟨?_, ?_, ?_, ?_, ?_, ?_, ?_, ?_, ?_, ?_⟩ <;>
    intro h1 h2 <;>
    simp [GetAnnualAverages, h1, h2, hv, hc, hs]

/-- C5 witness: concrete two-row table, first row all NaN, second row
finite in every column. -/
theorem annual_averages_ignore_nan_witness :
    (GetAnnualAverages
        [⟨Val.nan, Val.nan, Val.nan, Val.nan, CVal.nan, SVal.nan,
          Val.nan, Val.nan, Val.nan, Val.nan⟩,
         ⟨Val.num 1, Val.num 2, Val.num 3, Val.num 4, CVal.rt 5 6,
          SVal.rt 7 8, Val.num 9, Val.num 10, Val.num 11, Val.num 12⟩]).site_no
      = Val.num 1
    ∧ (GetAnnualAverages
        [⟨Val.nan, Val.nan, Val.nan, Val.nan, CVal.nan, SVal.nan,
          Val.nan, Val.nan, Val.nan, Val.nan⟩,
         ⟨Val.num 1, Val.num 2, Val.num 3, Val.num 4, CVal.rt 5 6,
          SVal.rt 7 8, Val.num 9, Val.num 10, Val.num 11, Val.num 12⟩]).coVar
      = CAvg.terms [(5, 6)]
    ∧ (GetAnnualAverages
        [⟨Val.nan, Val.nan, Val.nan, Val.nan, CVal.nan, SVal.nan,
          Val.nan, Val.nan, Val.nan, Val.nan⟩,
         ⟨Val.num 1, Val.num 2, Val.num 3, Val.num 4, CVal.rt 5 6,
          SVal.rt 7 8, Val.num 9, Val.num 10, Val.num 11, Val.num 12⟩]).skew
      = SAvg.terms [(7, 8)] :=
  ⟨(annual_averages_ignore_nan _ _ 1 5 6).1 rfl rfl,
   (annual_averages_ignore_nan _ _ 1 5 6).2.2.2.2.1 rfl rfl,
   (annual_averages_ignore_nan _ _ 1 7 8).2.2.2.2.2.1 rfl rfl⟩

/-- C10: `GetAnnualAverages` treats `site_no` like any metric — its
output `site_no` is the skip-NaN mean of the per-water-year `site_no`
entries, and `GetAnnualStatistics` sets each year's `site_no` to the
minimum site number observed in that year. -/
theorem annual_average_site_no_is_mean_of_minima :
    (∀ rows : List ARow,
      (GetAnnualAverages rows).site_no
        = vnanmean (rows.map (fun r => r.site_no)))
    ∧ (∀ df : List Obs,
      (GetAnnualStatistics df).map (fun r => r.site_no)
        = (chunksBy wyKey df).map (fun c => vmin (c.2.map (fun o => o.site_no)))) := by
  refine ⟨fun rows => rfl, fun df => ?_⟩
  simp only [GetAnnualStatistics, List.map_map]
  apply List.map_congr_left
  intro c _
  rfl

theorem keepMonth_map_pres {β γ : Type} (m : ℕ) (g : (ℤ × ℕ) × β → γ)
    (cs : List ((ℤ × ℕ) × β)) :
    keepMonth m (cs.map (fun p => (p.1, g p)))
      = (keepMonth m cs).map (fun p => (p.1, g p)) := by
  induction cs with
  | nil => rfl
  | cons p ps ih =>
    by_cases h : p.1.2 = m
    · simp [keepMonth, h, ih]
    · simp [keepMonth, h, ih]

/-- For a keyed list whose keys are `n` consecutive calendar months
from `(Y, m0)`, the Python slice `[c::12]` picks exactly the bins of
the calendar month `c` months after `m0`. -/
theorem slice_genM_keepMonth {β : Type} :
    ∀ (cs : List ((ℤ × ℕ) × β)) (Y : ℤ) (m0 n c : ℕ),
      1 ≤ m0 → m0 ≤ 12 → c < 12 →
      cs.map Prod.fst = genM Y m0 n →
      sliceEvery12 (cs.map Prod.snd) c
        = (keepMonth ((m0 - 1 + c) % 12 + 1) cs).map Prod.snd := by
  intro cs
  induction cs with
  | nil =>
    intro Y m0 n c _ _ _ _
    simp [sliceEvery12, keepMonth]
  | cons p ps ih =>
    intro Y m0 n c h1 h12 hc hkeys
    cases n with
    | zero => simp [genM] at hkeys
    | succ n =>
      rw [genM, List.map_cons, List.cons_eq_cons] at hkeys
      obtain ⟨hp, hrest⟩ := hkeys
      have hpm : p.1.2 = m0 := by rw [hp]
      by_cases hq : m0 = 12
      · subst hq
        rw [if_pos rfl] at hrest
        cases c with
        | zero =>
          have hmonth : (12 - 1 + 0) % 12 + 1 = 12 := by norm_num
          rw [hmonth, List.map_cons,
            show sliceEvery12 (p.2 :: ps.map Prod.snd) 0
              = p.2 :: sliceEvery12 (ps.map Prod.snd) 11 from rfl,
            keepMonth, if_pos hpm, List.map_cons]
          have h2 := ih (Y + 1) 1 n 11 (by norm_num) (by norm_num)
            (by norm_num) hrest
          have hm2 : (1 - 1 + 11) % 12 + 1 = 12 := by norm_num
          rw [hm2] at h2
          rw [h2]
        | succ c =>
          have hne : p.1.2 ≠ (12 - 1 + (c + 1)) % 12 + 1 := by
            rw [hpm]; omega
          rw [List.map_cons,
            show sliceEvery12 (p.2 :: ps.map Prod.snd) (c + 1)
              = sliceEvery12 (ps.map Prod.snd) c from rfl,
            keepMonth, if_neg hne]
          have h2 := ih (Y + 1) 1 n c (by norm_num) (by norm_num)
            (by omega) hrest
          have hm2 : (1 - 1 + c) % 12 + 1 = (12 - 1 + (c + 1)) % 12 + 1 := by
            omega
          rw [hm2] at h2
          rw [h2]
      · rw [if_neg hq] at hrest
        cases c with
        | zero =>
          have hmonth : (m0 - 1 + 0) % 12 + 1 = m0 := by omega
          rw [hmonth, List.map_cons,
            show sliceEvery12 (p.2 :: ps.map Prod.snd) 0
              = p.2 :: sliceEvery12 (ps.map Prod.snd) 11 from rfl,
            keepMonth, if_pos hpm, List.map_cons]
          have h2 := ih Y (m0 + 1) n 11 (by omega) (by omega)
            (by norm_num) hrest
          have hm2 : (m0 + 1 - 1 + 11) % 12 + 1 = m0 := by omega
          rw [hm2] at h2
          rw [h2]
        | succ c =>
          have hne : p.1.2 ≠ (m0 - 1 + (c + 1)) % 12 + 1 := by
            rw [hpm]; omega
          rw [List.map_cons,
            show sliceEvery12 (p.2 :: ps.map Prod.snd) (c + 1)
              = sliceEvery12 (ps.map Prod.snd) c from rfl,
            keepMonth, if_neg hne]
          have h2 := ih Y (m0 + 1) n c (by omega) (by omega)
            (by omega) hrest
          have hm2 : (m0 + 1 - 1 + c) % 12 + 1 = (m0 - 1 + (c + 1)) % 12 + 1 := by
            omega
          rw [hm2] at h2
          rw [h2]

/-- Slicing any column of the monthly table `[c::12]` over a series of
consecutive months starting in October yields that column over the bins
of the single calendar month `((9 + c) % 12) + 1`. -/
theorem slice_column {β : Type} (df : List Obs) (Y : ℤ) (n c : ℕ)
    (hc : c < 12) (h : monthKeys df = genM Y 10 n) (colf : MRow → β) :
    sliceEvery12 ((GetMonthlyStatistics df).map colf) c
      = (monthMRows df ((9 + c) % 12 + 1)).map colf := by
  have hkeys : ((chunksBy moKey df).map
      (fun p => (p.1, colf (mkMRow p.2)))).map Prod.fst = genM Y 10 n := by
    rw [List.map_map]
    simpa [monthKeys, Function.comp] using h
  have h2 := slice_genM_keepMonth ((chunksBy moKey df).map
      (fun p => (p.1, colf (mkMRow p.2)))) Y 10 n c (by norm_num)
    (by norm_num) hc hkeys
  rw [keepMonth_map_pres] at h2
  have hL : ((chunksBy moKey df).map
      (fun p => (p.1, colf (mkMRow p.2)))).map Prod.snd
      = (GetMonthlyStatistics df).map colf := by
    simp [GetMonthlyStatistics, List.map_map, Function.comp]
  have hmonthexpr : (10 - 1 + c) % 12 + 1 = (9 + c) % 12 + 1 := by norm_num
  rw [hL, hmonthexpr] at h2
  rw [h2]
  simp [monthMRows, List.map_map, Function.comp]

theorem slice0_ne_nil {α : Type} (ss : List α) (h : ss ≠ []) :
    sliceEvery12 ss 0 ≠ [] := by
  cases ss with
  | nil => exact absurd rfl h
  | cons a T => simp [sliceEvery12]

/-- C9: every one of the 12 rows of `GetMonthlyAverages` carries the
same `site_no`, the skip-NaN mean of the `site_no` entries at positions
`0, 12, 24, …` of the input table; when those entries are all finite it
is their arithmetic mean. -/
theorem monthly_averages_site_no_constant (mrows : List MRow) (i : ℕ)
    (hi : i < 12) :
    ((GetMonthlyAverages mrows).map (fun r => r.site_no)).get? i
      = some (vnanmean (sliceEvery12 (mrows.map (fun r => r.site_no)) 0))
    ∧ (∀ ss : List ℚ, mrows.map (fun r => r.site_no) = ss.map Val.num →
        ss ≠ [] →
        ((GetMonthlyAverages mrows).map (fun r => r.site_no)).get? i
          = some (Val.num ((sliceEvery12 ss 0).sum / (sliceEvery12 ss 0).length))) := by
  have hget : ((GetMonthlyAverages mrows).map (fun r => r.site_no)).get? i
      = some (vnanmean (sliceEvery12 (mrows.map (fun r => r.site_no)) 0)) := by
    rw [GetMonthlyAverages, List.map_map, List.get?_map, List.get?_range hi]
    rfl
  refine ⟨hget, fun ss hss hne => ?_⟩
  rw [hget, hss, sliceEvery12_map,
    vnanmean_map_num (sliceEvery12 ss 0) (slice0_ne_nil ss hne)]

/-- C9 witness: a one-row table with `site_no = 4`. -/
theorem monthly_averages_site_no_constant_witness :
    ((GetMonthlyAverages [⟨Val.num 4, Val.nan, CVal.nan, Val.nan, Val.nan⟩]).map
        (fun r => r.site_no)).get? 0 = some (Val.num 4) := by
  have h := (monthly_averages_site_no_constant
      [⟨Val.num 4, Val.nan, CVal.nan, Val.nan, Val.nan⟩] 0 (by norm_num)).2
    [4] (by simp) (by simp)
  have hv : Val.num ((sliceEvery12 [(4 : ℚ)] 0).sum / (sliceEvery12 [(4 : ℚ)] 0).length)
      = Val.num 4 := by
    norm_num [sliceEvery12]
  rw [hv] at h
  exact h

/-- C1 counterexample: `CdfA` is one whole water year of monthly bins
starting in October (its month keys are the twelve consecutive months
from October 1969), its October mean flow is 10, yet row index 1 of
`GetMonthlyAverages` holds mean flow 20 — January's value, not
October's. -/
theorem monthly_averages_row1_not_october :
    monthKeys CdfA = genM 1969 10 12
    ∧ ((GetMonthlyAverages (GetMonthlyStatistics CdfA)).get? 0).map
        (fun r => r.meanFlow) = some (Val.num 20)
    ∧ vnanmean ((monthMRows CdfA 10).map (fun r => r.meanFlow)) = Val.num 10
    ∧ Val.num 20 ≠ Val.num (10 : ℚ) := by
  refine ⟨?_, ?_, ?_, by norm_num⟩
  · norm_num [monthKeys, CdfA, mkObs, chunksBy, moKey, genM]
  · norm_num [GetMonthlyAverages, GetMonthlyStatistics, CdfA, mkObs, chunksBy,
      moKey, mkMRow, vmeanOpt, dropna, qmean, sliceEvery12, monthOffsets,
      vnanmean, dropNanV, numsOf,
      show List.range 12 = [0, 1, 2, 3, 4, 5, 6, 7, 8, 9, 10, 11] from rfl]
  · norm_num [monthMRows, CdfA, mkObs, chunksBy, moKey, keepMonth, mkMRow,
      vmeanOpt, dropna, qmean, vnanmean, dropNanV, numsOf]

/-- C1 (amended): over a whole number of water years of monthly bins
starting in October, row index `i+1` of `GetMonthlyAverages` holds the
column-wise skip-NaN means of calendar month `i+1` — the rows are in
calendar order January (index 1) … December (index 12), not in
water-year order. -/
theorem monthly_averages_calendar_order (df : List Obs) (Y : ℤ) (k i : ℕ)
    (hkeys : monthKeys df = genM Y 10 (12 * (k + 1))) (hi : i < 12) :
    ((GetMonthlyAverages (GetMonthlyStatistics df)).get? i).map
        (fun r => r.meanFlow)
      = some (vnanmean ((monthMRows df (i + 1)).map (fun r => r.meanFlow)))
    ∧ ((GetMonthlyAverages (GetMonthlyStatistics df)).get? i).map
        (fun r => r.tqmean)
      = some (vnanmean ((monthMRows df (i + 1)).map (fun r => r.tqmean)))
    ∧ ((GetMonthlyAverages (GetMonthlyStatistics df)).get? i).map
        (fun r => r.rbIndex)
      = some (vnanmean ((monthMRows df (i + 1)).map (fun r => r.rbIndex)))
    ∧ ((GetMonthlyAverages (GetMonthlyStatistics df)).get? i).map
        (fun r => r.coVar)
      = some (cnanmean ((monthMRows df (i + 1)).map (fun r => r.coVar))) := by
  have hoff1 : monthOffsets.getD i 0 < 12 := by
    interval_cases i <;> norm_num [monthOffsets]
  have hoff2 : (9 + monthOffsets.getD i 0) % 12 + 1 = i + 1 := by
    interval_cases i <;> norm_num [monthOffsets]
  refine ⟨?_, ?_, ?_, ?_⟩
  · have hcol : ((GetMonthlyAverages (GetMonthlyStatistics df)).get? i).map
        (fun r => r.meanFlow)
        = some (vnanmean (sliceEvery12
            ((GetMonthlyStatistics df).map (fun r => r.meanFlow))
            (monthOffsets.getD i 0))) := by
      rw [GetMonthlyAverages, List.get?_map, List.get?_range hi]
      rfl
    rw [hcol, slice_column df Y (12 * (k + 1)) (monthOffsets.getD i 0)
      hoff1 hkeys, hoff2]
  · have hcol : ((GetMonthlyAverages (GetMonthlyStatistics df)).get? i).map
        (fun r => r.tqmean)
        = some (vnanmean (sliceEvery12
            ((GetMonthlyStatistics df).map (fun r => r.tqmean))
            (monthOffsets.getD i 0))) := by
      rw [GetMonthlyAverages, List.get?_map, List.get?_range hi]
      rfl
    rw [hcol, slice_column df Y (12 * (k + 1)) (monthOffsets.getD i 0)
      hoff1 hkeys, hoff2]
  · have hcol : ((GetMonthlyAverages (GetMonthlyStatistics df)).get? i).map
        (fun r => r.rbIndex)
        = some (vnanmean (sliceEvery12
            ((GetMonthlyStatistics df).map (fun r => r.rbIndex))
            (monthOffsets.getD i 0))) := by
      rw [GetMonthlyAverages, List.get?_map, List.get?_range hi]
      rfl
    rw [hcol, slice_column df Y (12 * (k + 1)) (monthOffsets.getD i 0)
      hoff1 hkeys, hoff2]
  · have hcol : ((GetMonthlyAverages (GetMonthlyStatistics df)).get? i).map
        (fun r => r.coVar)
        = some (cnanmean (sliceEvery12
            ((GetMonthlyStatistics df).map (fun r => r.coVar))
            (monthOffsets.getD i 0))) := by
      rw [GetMonthlyAverages, List.get?_map, List.get?_range hi]
      rfl
    rw [hcol, slice_column df Y (12 * (k + 1)) (monthOffsets.getD i 0)
      hoff1 hkeys, hoff2]

/-- C1 witness for the amended claim: on `CdfA`, row index 1 holds
January's mean flow, 20. -/
theorem monthly_averages_calendar_order_witness :
    ((GetMonthlyAverages (GetMonthlyStatistics CdfA)).get? 0).map
        (fun r => r.meanFlow)
      = some (vnanmean ((monthMRows CdfA 1).map (fun r => r.meanFlow)))
    ∧ vnanmean ((monthMRows CdfA 1).map (fun r => r.meanFlow)) = Val.num 20 := by
  refine ⟨(monthly_averages_calendar_order CdfA 1969 0 0
      (by norm_num [monthKeys, CdfA, mkObs, chunksBy, moKey, genM])
      (by norm_num)).1, ?_⟩
  norm_num [monthMRows, CdfA, mkObs, chunksBy, moKey, keepMonth, mkMRow,
    vmeanOpt, dropna, qmean, vnanmean, dropNanV, numsOf]
